import Mathlib

/-!
Verification of the gree-ir infrared remote-control codec (src/lib.rs).

The structured-field variant of the codec is embedded shallowly: pulse
symbols become the inductive `Code`, the decoder's `&mut impl Iterator`
threading becomes a state-passing parser `P α = List Code → Except
DecodeError (α × List Code)`, and machine `u8` arithmetic becomes `Nat`
with the same shift/mask operators (all intermediate values stay below
2^8 on the paths exercised, mirroring release-mode Rust).
-/

set_option maxHeartbeats 1000000
set_option maxRecDepth 8000
set_option linter.unusedVariables false
set_option linter.unreachableTactic false
set_option linter.unusedTactic false

deriving instance DecidableEq for Except

namespace Gree

/-- The five pulse symbols (`enum Code`, src/lib.rs lines 8-16).
`cont` embeds Rust `Continue`, `stop` embeds Rust `End` (both are Lean
keywords). `short` carries bit 0, `long` carries bit 1. -/
inductive Code where
  | start
  | cont
  | stop
  | short
  | long
  deriving DecidableEq

/-- Decode-error taxonomy (`enum DecodeError`, lines 212-224). -/
inductive DecodeError where
  | invalidMarker
  | unexpectedMarker
  | invalidMode
  | invalidTimerSetting
  | invalidFan
  | invalidTemperature
  | invalidSwingMode
  | invalidMagic (blockId : Nat)
  | eof
  | checksum (nibbles : Nat)
  deriving DecidableEq

/-- `From<bool> for Code` (lines 18-26): `true → Long`, `false → Short`. -/
def Code.fromBool (value : Bool) : Code :=
  if value then Code.long else Code.short

/-- `TryInto<u8> for Code` (lines 28-38): markers fail, `Short → 0`,
`Long → 1`. -/
def Code.toByte : Code → Except DecodeError Nat
  | .start | .cont | .stop => .error .unexpectedMarker
  | .short => .ok 0
  | .long => .ok 1

/-- `TryInto<bool> for Code` (lines 40-50). -/
def Code.toBool : Code → Except DecodeError Bool
  | .start | .cont | .stop => .error .unexpectedMarker
  | .short => .ok false
  | .long => .ok true

/-- A decoder step: the Rust `&mut impl Iterator<Item = Code>` argument
becomes explicit threading of the remaining symbol list. -/
@[reducible] def P (α : Type) : Type :=
  List Code → Except DecodeError (α × List Code)

instance : Monad P where
  pure a := fun l => .ok (a, l)
  bind p f := fun l =>
    match p l with
    | .error e => .error e
    | .ok (v, l) => f v l

/-- `iter.next().ok_or(DecodeError::Eof)?`. -/
def pnext : P Code := fun l =>
  match l with
  | [] => .error .eof
  | c :: l => .ok (c, l)

/-- An early `return Err(e)` inside a decoder. -/
def perr (e : DecodeError) : P α := fun _ => .error e

/-- Lifts a `Result` already computed from consumed symbols (Rust `?` on
a non-iterator expression). -/
def pofExcept (e : Except DecodeError α) : P α := fun l =>
  match e with
  | .error err => .error err
  | .ok v => .ok (v, l)

/-- `iter.nth(n).ok_or(DecodeError::Eof)?`: drops `n` symbols, then
yields the next one (consuming `n + 1` in total), `Eof` when the list
runs out. -/
def pnth : Nat → P Code
  | 0 => pnext
  | n + 1 => fun l =>
    match l with
    | [] => .error .eof
    | _ :: l => pnth n l

/-- `iter.next().ok_or(Eof)?.try_into()?` at `u8` type. -/
def pnextBit : P Nat := do
  let c ← pnext
  pofExcept c.toByte

/-- `iter.next().ok_or(Eof)?.try_into()?` at `bool` type. -/
def pnextBool : P Bool := do
  let c ← pnext
  pofExcept c.toBool

/-- `iter.nth(n).ok_or(Eof)?.try_into()?` at `bool` type (line 144). -/
def pnthBool (n : Nat) : P Bool := do
  let c ← pnth n
  pofExcept c.toBool

/-- The Rust `let Code::X = iter.next().ok_or(Eof)? else { return
Err(InvalidMarker) }` pattern (lines 116, 133, 177): equality test
against the expected marker. -/
def pexpect (c : Code) : P Unit := do
  let c2 ← pnext
  if c2 = c then pure () else perr .invalidMarker

/-- The `for i in 0..n { let t = next?.try_into()?; a |= t << i }` loop
used by the temperature (4 bits), timer (8 bits), swing (4 bits) and
checksum (4 bits) decoders. `i` is the current bit index, `acc` the bits
assembled so far. -/
def readBits : Nat → Nat → Nat → P Nat
  | 0, _, acc => pure acc
  | n + 1, i, acc => do
    let c ← pnext
    let t ← pofExcept c.toByte
    readBits n (i + 1) (acc ||| t <<< i)

/-- `(0..k).map(|i| Code::from(v >> i & 0x1 != 0))`: the little-endian
bit-to-symbol emitter every `encode` uses. -/
def bitCodes (k v : Nat) : List Code :=
  (List.range k).map fun i => Code.fromBool (Nat.testBit v i)

/-- `enum Mode` (lines 226-233). -/
inductive Mode where
  | auto
  | cold
  | dry
  | wind
  | hot
  deriving DecidableEq

/-- `Mode as u8` discriminant values. -/
def Mode.toNat : Mode → Nat
  | .auto => 0
  | .cold => 1
  | .dry => 2
  | .wind => 3
  | .hot => 4

/-- `Mode::encode` (lines 236-242): 3 bits, LSB first. -/
def Mode.encode (m : Mode) : List Code :=
  bitCodes 3 m.toNat

/-- The final `match a << 0 | b << 1 | c << 2` of `Mode::decode`
(lines 248-255), split out so it can be reasoned about per value. -/
def Mode.ofBits (v : Nat) : P Mode :=
  match v with
  | 0 => pure .auto
  | 1 => pure .cold
  | 2 => pure .dry
  | 3 => pure .wind
  | 4 => pure .hot
  | _ => perr .invalidMode

/-- `Mode::decode` (lines 244-256). -/
def Mode.decode : P Mode := do
  let a ← pnextBit
  let b ← pnextBit
  let c ← pnextBit
  Mode.ofBits (a ||| b <<< 1 ||| c <<< 2)

/-- `enum Fan` (lines 259-265). -/
inductive Fan where
  | auto
  | level1
  | level2
  | level3
  deriving DecidableEq

/-- `Fan as u8` discriminant values. -/
def Fan.toNat : Fan → Nat
  | .auto => 0
  | .level1 => 1
  | .level2 => 2
  | .level3 => 3

/-- `Fan::encode` (lines 268-273): 2 bits, LSB first. -/
def Fan.encode (f : Fan) : List Code :=
  bitCodes 2 f.toNat

/-- The final `match a << 0 | b << 1` of `Fan::decode` (lines 279-285). -/
def Fan.ofBits (v : Nat) : P Fan :=
  match v with
  | 0 => pure .auto
  | 1 => pure .level1
  | 2 => pure .level2
  | 3 => pure .level3
  | _ => perr .invalidFan

/-- `Fan::decode` (lines 276-286). -/
def Fan.decode : P Fan := do
  let a ← pnextBit
  let b ← pnextBit
  Fan.ofBits (a ||| b <<< 1)

/-- `struct Temperature(u8)` (line 290): stores the centigrade value. -/
structure Temperature where
  val : Nat
  deriving DecidableEq

/-- `Temperature::from_centigrade` (lines 293-299). -/
def Temperature.fromCentigrade (degrees : Nat) : Option Temperature :=
  if degrees < 16 || degrees > 30 then none else some ⟨degrees⟩

/-- `Temperature::encode` (lines 301-307): 4 bits of `value - 16`,
LSB first. -/
def Temperature.encode (t : Temperature) : List Code :=
  bitCodes 4 (t.val - 16)

/-- `Temperature::decode` (lines 309-321). -/
def Temperature.decode : P Temperature := do
  let a ← readBits 4 0 0
  if a > 30 - 16 then perr .invalidTemperature else pure ⟨a + 16⟩

/-- `struct TimerSetting` (lines 330-334). -/
structure TimerSetting where
  enabled : Bool
  half_hours : Nat
  deriving DecidableEq

/-- `Into<u8> for &TimerSetting` (lines 371-379): packs
`half | tens << 1 | enabled << 3 | units << 4`. -/
def TimerSetting.toU8 (t : TimerSetting) : Nat :=
  let hours := t.half_hours / 2
  let half := t.half_hours % 2
  let tens := hours / 10
  let units := hours % 10
  half ||| tens <<< 1 ||| (if t.enabled then 1 else 0) <<< 3 ||| units <<< 4

/-- `TryFrom<u8> for TimerSetting` (lines 352-369). -/
def TimerSetting.tryFrom (value : Nat) : Except DecodeError TimerSetting :=
  let half := value &&& 1
  let tens := (value >>> 1) &&& 0b11
  let enabled := (value >>> 3) &&& 1 != 0
  let units := value >>> 4
  if tens > 2 || units > 9 then
    .error .invalidTimerSetting
  else
    .ok ⟨enabled, (tens * 10 + units) * 2 + half⟩

/-- `TimerSetting::encode` (lines 337-340): 8 bits of the packed byte,
LSB first. -/
def TimerSetting.encode (t : TimerSetting) : List Code :=
  bitCodes 8 t.toU8

/-- `TimerSetting::decode` (lines 342-349). -/
def TimerSetting.decode : P TimerSetting := do
  let a ← readBits 8 0 0
  pofExcept (TimerSetting.tryFrom a)

/-- `enum SwingMode` (lines 381-399): all 16 patterns of the 4-bit
field are named variants. -/
inductive SwingMode where
  | off
  | on
  | unknown2
  | unknown3
  | unknown4
  | unknown5
  | unknown6
  | unknown7
  | unknown8
  | unknown9
  | unknown10
  | unknown11
  | unknown12
  | unknown13
  | unknown14
  | unknown15
  deriving DecidableEq

/-- `SwingMode as u8` discriminant values. -/
def SwingMode.toNat : SwingMode → Nat
  | .off => 0
  | .on => 1
  | .unknown2 => 2
  | .unknown3 => 3
  | .unknown4 => 4
  | .unknown5 => 5
  | .unknown6 => 6
  | .unknown7 => 7
  | .unknown8 => 8
  | .unknown9 => 9
  | .unknown10 => 10
  | .unknown11 => 11
  | .unknown12 => 12
  | .unknown13 => 13
  | .unknown14 => 14
  | .unknown15 => 15

/-- The total `match a` of `SwingMode::decode` (lines 413-430): `1..15`
map to the named variants, everything else (i.e. `0`) to `Off`. -/
def SwingMode.fromBits (v : Nat) : SwingMode :=
  match v with
  | 1 => .on
  | 2 => .unknown2
  | 3 => .unknown3
  | 4 => .unknown4
  | 5 => .unknown5
  | 6 => .unknown6
  | 7 => .unknown7
  | 8 => .unknown8
  | 9 => .unknown9
  | 10 => .unknown10
  | 11 => .unknown11
  | 12 => .unknown12
  | 13 => .unknown13
  | 14 => .unknown14
  | 15 => .unknown15
  | _ => .off

/-- `SwingMode::encode` (lines 402-405): 4 bits, LSB first. -/
def SwingMode.encode (s : SwingMode) : List Code :=
  bitCodes 4 s.toNat

/-- `SwingMode::decode` (lines 407-431): never fails on data bits. -/
def SwingMode.decode : P SwingMode := do
  let a ← readBits 4 0 0
  pure (SwingMode.fromBits a)

/-- `enum TemperatureDisplay` (lines 434-440). -/
inductive TemperatureDisplay where
  | setting
  | room
  | indoor
  | outdoor
  deriving DecidableEq

/-- `TemperatureDisplay as u8` discriminant values. -/
def TemperatureDisplay.toNat : TemperatureDisplay → Nat
  | .setting => 0
  | .room => 1
  | .indoor => 2
  | .outdoor => 3

/-- `TemperatureDisplay::encode` (lines 443-446): 2 bits, LSB first. -/
def TemperatureDisplay.encode (t : TemperatureDisplay) : List Code :=
  bitCodes 2 t.toNat

/-- The final `match (a, b)` of `TemperatureDisplay::decode`
(lines 451-456), split out so it can be reasoned about per value. -/
def TemperatureDisplay.ofBools (a b : Bool) : P TemperatureDisplay :=
  match a, b with
  | false, false => pure .setting
  | true, false => pure .room
  | false, true => pure .indoor
  | true, true => pure .outdoor

/-- `TemperatureDisplay::decode` (lines 448-457): total over the four
bit patterns. -/
def TemperatureDisplay.decode : P TemperatureDisplay := do
  let a ← pnextBool
  let b ← pnextBool
  TemperatureDisplay.ofBools a b

/-- `MAGIC_1` (lines 460-468). -/
def MAGIC_1 : List Code :=
  [Code.short, Code.short, Code.short, Code.long, Code.short, Code.long,
   Code.short]

/-- `MAGIC_2` (lines 469-477). -/
def MAGIC_2 : List Code :=
  [Code.short, Code.short, Code.short, Code.long, Code.long, Code.long,
   Code.short]

/-- `MAGIC_3` (line 478). -/
def MAGIC_3 : List Code := [Code.short, Code.long, Code.short]

/-- `MAGIC_4` (line 479). -/
def MAGIC_4 : List Code := [Code.short, Code.short, Code.long]

/-- `check_magic_code1` (lines 481-490): reads 7 symbols (`Eof` when
fewer remain) and requires them to equal `MAGIC_1` or `MAGIC_2` (the
Rust or-pattern `MAGIC_1 | MAGIC_2` is a membership test in a two
element set). -/
def check_magic_code1 : P Unit := fun l =>
  match l with
  | c0 :: c1 :: c2 :: c3 :: c4 :: c5 :: c6 :: rest =>
    if [c0, c1, c2, c3, c4, c5, c6] = MAGIC_1 ∨
        [c0, c1, c2, c3, c4, c5, c6] = MAGIC_2 then
      .ok ((), rest)
    else
      .error (.invalidMagic 1)
  | _ => .error .eof

/-- `check_magic_code2` (lines 492-501): 3 symbols against `MAGIC_3`. -/
def check_magic_code2 : P Unit := fun l =>
  match l with
  | c0 :: c1 :: c2 :: rest =>
    if [c0, c1, c2] = MAGIC_3 then .ok ((), rest)
    else .error (.invalidMagic 2)
  | _ => .error .eof

/-- `check_magic_code3` (lines 503-512): 3 symbols against `MAGIC_4`. -/
def check_magic_code3 : P Unit := fun l =>
  match l with
  | c0 :: c1 :: c2 :: rest =>
    if [c0, c1, c2] = MAGIC_4 then .ok ((), rest)
    else .error (.invalidMagic 3)
  | _ => .error .eof

/-- `struct Controller` (lines 52-73): the structured-field device
state. -/
structure Controller where
  mode : Mode
  «on» : Bool
  fan : Fan
  swing : Bool
  sleep : Bool
  temperature : Temperature
  timing : TimerSetting
  strong : Bool
  light : Bool
  anion : Bool
  dry : Bool
  ventilate : Bool
  v_swing : SwingMode
  h_swing : SwingMode
  temperature_display : TemperatureDisplay
  i_feel : Bool
  wifi : Bool
  econo : Bool
  deriving DecidableEq

/-- `Controller::checksum_block` (lines 197-209): `10` plus the low
nibbles of the first 4 bytes plus the high nibbles of the next 3 bytes,
masked to 4 bits. -/
def Controller.checksum_block (data : List Nat) : Nat :=
  let sum := 10 + ((data.take 4).map (fun v => v &&& 0xF)).sum
    + (((data.drop 4).take 3).map (fun v => v >>> 4)).sum
  sum &&& 0xF

/-- `Controller::checksum` (lines 184-195): the attribute-byte view the
code actually feeds to `checksum_block` (note the literal `0x0` at the
timer byte and the absence of the wifi bit). -/
def Controller.checksum (s : Controller) : Nat :=
  Controller.checksum_block [
    s.mode.toNat ||| s.on.toNat <<< 3,
    s.temperature.val - 16,
    0x0,
    s.ventilate.toNat ||| 0b01010000,
    s.v_swing.toNat ||| s.h_swing.toNat <<< 4,
    s.temperature_display.toNat ||| s.i_feel.toNat <<< 2 ||| 0b100 <<< 3,
    0x00]

/-- `Controller::encode` (lines 76-109): `Start`, 35 segment-A symbols,
`Continue`, 32 segment-B symbols, `End`. -/
def Controller.encode (s : Controller) : List Code :=
  let code35 :=
    s.mode.encode ++ [Code.fromBool s.on] ++ s.fan.encode
      ++ [Code.fromBool s.swing] ++ [Code.fromBool s.sleep]
      ++ s.temperature.encode ++ s.timing.encode
      ++ [Code.fromBool s.strong] ++ [Code.fromBool s.light]
      ++ [Code.fromBool s.anion] ++ [Code.fromBool s.dry]
      ++ [Code.fromBool s.ventilate] ++ MAGIC_1 ++ MAGIC_3
  let code32 :=
    s.v_swing.encode ++ s.h_swing.encode ++ s.temperature_display.encode
      ++ [Code.fromBool s.i_feel] ++ MAGIC_4 ++ [Code.fromBool s.wifi]
      ++ List.replicate 11 Code.short ++ [Code.fromBool s.econo]
      ++ [Code.short] ++ bitCodes 4 (Controller.checksum s)
  [Code.start] ++ code35 ++ [Code.cont] ++ code32 ++ [Code.stop]

/-- The field values read by `Controller::decode` up to and including
the wifi bit (lines 116-142), in reading order. -/
@[reducible] def SegAB : Type :=
  Mode × Bool × Fan × Bool × Bool × Temperature × TimerSetting × Bool
    × Bool × Bool × Bool × Bool × SwingMode × SwingMode
    × TemperatureDisplay × Bool × Bool

/-- `Controller::decode`, lines 116-142: everything from the consumed
`Start` marker through the wifi bit (52 symbols). -/
def Controller.decodeSegAB : P SegAB := do
  pexpect .start
  let mode ← Mode.decode
  let «on» ← pnextBool
  let fan ← Fan.decode
  let swing ← pnextBool
  let sleep ← pnextBool
  let temperature ← Temperature.decode
  let timing ← TimerSetting.decode
  let humidification ← pnextBool
  let light ← pnextBool
  let anion ← pnextBool
  let dry ← pnextBool
  let ventilate ← pnextBool
  check_magic_code1
  check_magic_code2
  pexpect .cont
  let v_swing ← SwingMode.decode
  let h_swing ← SwingMode.decode
  let temperature_display ← TemperatureDisplay.decode
  let i_feel ← pnextBool
  check_magic_code3
  let wifi ← pnextBool
  pure (mode, «on», fan, swing, sleep, temperature, timing, humidification,
    light, anion, dry, ventilate, v_swing, h_swing, temperature_display,
    i_feel, wifi)

/-- `Controller::decode`, lines 144-166: skips 11 reserved symbols and
reads the econo bit (`iter.nth(11)`), discards one more reserved symbol,
and builds the state value. -/
def Controller.decodeFields : P Controller := do
  let (mode, «on», fan, swing, sleep, temperature, timing, humidification,
    light, anion, dry, ventilate, v_swing, h_swing, temperature_display,
    i_feel, wifi) ← Controller.decodeSegAB
  let power_save ← pnthBool 11
  let _ ← pnext
  pure {
    mode := mode
    «on» := «on»
    fan := fan
    swing := swing
    sleep := sleep
    temperature := temperature
    timing := timing
    strong := humidification
    light := light
    anion := anion
    dry := dry
    ventilate := ventilate
    v_swing := v_swing
    h_swing := h_swing
    temperature_display := temperature_display
    i_feel := i_feel
    wifi := wifi
    econo := power_save }

/-- `Controller::decode`, lines 168-181: reads the 4 transmitted
checksum bits, compares against the recomputed checksum (packing both
nibbles into the error payload on mismatch), then requires the `End`
marker. -/
def Controller.decodeTail (value : Controller) : P Controller := do
  let cs ← readBits 4 0 0
  if cs ≠ Controller.checksum value then
    perr (.checksum (cs <<< 4 ||| Controller.checksum value))
  else do
    pexpect .stop
    pure value

/-- The whole iterator-driven part of `Controller::decode`
(lines 115-181). -/
def Controller.decodeBody : P Controller := do
  let value ← Controller.decodeFields
  Controller.decodeTail value

/-- `Controller::decode` (lines 111-182): the `let (Start, Continue,
End) = (codes[0], codes[36], codes[69]) else return InvalidMarker`
guard, then the iterator parse. The Rust `&[Code; 70]` argument is a
`List Code`; every theorem below that needs the fixed size carries
`codes.length = 70`. -/
def Controller.decode (codes : List Code) : Except DecodeError Controller :=
  if (codes[0]?, codes[36]?, codes[69]?)
      = (some Code.start, some Code.cont, some Code.stop) then
    Except.map Prod.fst (Controller.decodeBody codes)
  else
    .error .invalidMarker

/-- Exact parser footprint: `p` reads at most `w` leading symbols (so a
longer list changes nothing past them), never reports `Eof` when `w`
symbols are available, and consumes exactly `w` symbols whenever it
succeeds. -/
def PSpec (w : Nat) (p : P α) : Prop :=
  (∀ l r, w ≤ l.length →
    p (l ++ r) = Except.map (fun vr => (vr.1, vr.2 ++ r)) (p l)) ∧
  (∀ l, w ≤ l.length → p l ≠ .error .eof) ∧
  (∀ l v rest, p l = .ok (v, rest) → rest.length + w = l.length)

/-- Modelled from the spec: the packed attribute-byte view of the state
(spec sections 4.4 and 4.5) for the packed-byte protocol variant, whose
source file is not part of src/. Byte and bit positions follow the
frame layout of section 4.3 read LSB-first into consecutive bytes:
byte 0 = mode/on/fan/swing/sleep, byte 1 = temperature low nibble with
the leading timer bits in the high nibble, byte 2 = timer units nibble
with turbo/light/health/dry above it, byte 3 = ventilate plus the fixed
magic bits, byte 4 = v_swing/h_swing, byte 5 = temperature_display,
i_feel, the fixed magic bit and wifi, byte 6 = reserved zeros. -/
def packedView (s : Controller) : List Nat :=
  [s.mode.toNat ||| s.on.toNat <<< 3 ||| s.fan.toNat <<< 4
      ||| s.swing.toNat <<< 6 ||| s.sleep.toNat <<< 7,
   (s.temperature.val - 16) ||| (s.timing.toU8 &&& 0xF) <<< 4,
   (s.timing.toU8 >>> 4) ||| s.strong.toNat <<< 4 ||| s.light.toNat <<< 5
      ||| s.anion.toNat <<< 6 ||| s.dry.toNat <<< 7,
   s.ventilate.toNat ||| 0b01010000,
   s.v_swing.toNat ||| s.h_swing.toNat <<< 4,
   s.temperature_display.toNat ||| s.i_feel.toNat <<< 2 ||| 0b100 <<< 3
      ||| s.wifi.toNat <<< 6,
   0x00]

/-- The packed attribute-byte view as the `Controller::checksum` code
actually uses it: the timer nibble of byte 2 is zero and the wifi bit
is absent from byte 5. -/
def packedViewUsed (s : Controller) : List Nat :=
  [s.mode.toNat ||| s.on.toNat <<< 3 ||| s.fan.toNat <<< 4
      ||| s.swing.toNat <<< 6 ||| s.sleep.toNat <<< 7,
   (s.temperature.val - 16) ||| (s.timing.toU8 &&& 0xF) <<< 4,
   0 ||| s.strong.toNat <<< 4 ||| s.light.toNat <<< 5
      ||| s.anion.toNat <<< 6 ||| s.dry.toNat <<< 7,
   s.ventilate.toNat ||| 0b01010000,
   s.v_swing.toNat ||| s.h_swing.toNat <<< 4,
   s.temperature_display.toNat ||| s.i_feel.toNat <<< 2 ||| 0b100 <<< 3,
   0x00]

/-- A concrete in-range state used by the witnesses: 25 °C, timer off,
everything else at its first variant / false. -/
def sampleState : Controller where
  mode := .auto
  «on» := false
  fan := .auto
  swing := false
  sleep := false
  temperature := ⟨25⟩
  timing := ⟨false, 0⟩
  strong := false
  light := false
  anion := false
  dry := false
  ventilate := false
  v_swing := .off
  h_swing := .off
  temperature_display := .setting
  i_feel := false
  wifi := false
  econo := false

/-- A state on which the code checksum and the spec packed-view formula
disagree: wifi set and a timer with a non-zero units digit. -/
def mismatchState : Controller :=
  { sampleState with wifi := true, timing := ⟨false, 2⟩ }

/-- A state agreeing with `sampleState` exactly on the five
checksum-relevant fields (mode, on, temperature, ventilate, h_swing)
and differing in every other field. -/
def altState : Controller :=
  { sampleState with
    fan := .level3
    swing := true
    sleep := true
    timing := ⟨true, 48⟩
    strong := true
    light := true
    anion := true
    dry := true
    v_swing := .unknown7
    temperature_display := .outdoor
    i_feel := true
    wifi := true
    econo := true }

/-- `encode sampleState` with the first transmitted checksum bit
(position 65) flipped from `Long` to `Short`, turning the transmitted
nibble 5 into 4. -/
def tamperedFrame : List Code :=
  (Controller.encode sampleState).set 65 Code.short

/-- `encode sampleState` with arbitrary junk (including marker symbols)
stored in the reserved positions 52, 60 and 64. -/
def reservedJunkFrame : List Code :=
  (((Controller.encode sampleState).set 52 Code.start).set 60
    Code.long).set 64 Code.cont

end Gree

namespace Gree

/-! ### Parser-stepping infrastructure -/

theorem bind_apply (p : P α) (f : α → P β) (l : List Code) :
    (p >>= f) l = match p l with
      | .error e => .error e
      | .ok (v, l2) => f v l2 := rfl

theorem pure_apply (a : α) (l : List Code) : (pure a : P α) l = .ok (a, l) := rfl

theorem pnext_cons (c : Code) (l : List Code) : pnext (c :: l) = .ok (c, l) := rfl

theorem pexpect_cons (c : Code) (r : List Code) :
    pexpect c (c :: r) = .ok ((), r) := by
  simp [pexpect, bind_apply, pnext_cons, pure_apply]

theorem pnextBool_fromBool (b : Bool) (r : List Code) :
    pnextBool (Code.fromBool b :: r) = .ok (b, r) := by cases b <;> rfl

/-! ### Round-trip lemmas for the attribute codecs -/

theorem mode_rt (m : Mode) (r : List Code) :
    Mode.decode (Mode.encode m ++ r) = .ok (m, r) := by cases m <;> rfl

theorem fan_rt (f : Fan) (r : List Code) :
    Fan.decode (Fan.encode f ++ r) = .ok (f, r) := by cases f <;> rfl

theorem temperature_rt (t : Temperature) (r : List Code)
    (h1 : 16 ≤ t.val) (h2 : t.val ≤ 30) :
    Temperature.decode (Temperature.encode t ++ r) = .ok (t, r) := by
  obtain ⟨v⟩ := t
  simp only at h1 h2
  interval_cases v <;> rfl

theorem timer_rt (t : TimerSetting) (r : List Code)
    (h : t.half_hours ≤ 48) :
    TimerSetting.decode (TimerSetting.encode t ++ r) = .ok (t, r) := by
  obtain ⟨e, hh⟩ := t
  simp only at h
  interval_cases hh <;> cases e <;> rfl

theorem Swingmode_rt (s : SwingMode) (r : List Code) :
    SwingMode.decode (SwingMode.encode s ++ r) = .ok (s, r) := by
  cases s <;> rfl

theorem tdisplay_rt (t : TemperatureDisplay) (r : List Code) :
    TemperatureDisplay.decode (TemperatureDisplay.encode t ++ r) = .ok (t, r) := by
  cases t <;> rfl

theorem magic1_rt (r : List Code) :
    check_magic_code1 (MAGIC_1 ++ r) = .ok ((), r) := rfl

theorem magic2_rt (r : List Code) :
    check_magic_code2 (MAGIC_3 ++ r) = .ok ((), r) := rfl

theorem magic3_rt (r : List Code) :
    check_magic_code3 (MAGIC_4 ++ r) = .ok ((), r) := rfl

theorem pnthBool_skip (b : Bool) (r : List Code) :
    pnthBool 11 (List.replicate 11 Code.short ++ Code.fromBool b :: r)
      = .ok (b, r) := by
  cases b <;> rfl

theorem checksum_lt (s : Controller) : Controller.checksum s < 16 := by
  have h : Controller.checksum s ≤ 15 := Nat.and_le_right
  omega

theorem readBits_bitCodes (c : Nat) (r : List Code) (h : c < 16) :
    readBits 4 0 0 (bitCodes 4 c ++ r) = .ok (c, r) := by
  interval_cases c <;> rfl

/-! ### Frame geometry -/

theorem bitCodes_length (k v : Nat) : (bitCodes k v).length = k := by
  simp [bitCodes]

theorem frame_markers (A B : List Code) (hA : A.length = 35) (hB : B.length = 32) :
    ([Code.start] ++ A ++ [Code.cont] ++ B ++ [Code.stop])[0]? = some Code.start ∧
    ([Code.start] ++ A ++ [Code.cont] ++ B ++ [Code.stop])[36]? = some Code.cont ∧
    ([Code.start] ++ A ++ [Code.cont] ++ B ++ [Code.stop])[69]? = some Code.stop := by
  refine ⟨?_, ?_, ?_⟩
  · simp [List.getElem?_append, hA, hB]
  · simp [List.getElem?_append, hA, hB]
    rw [List.getElem_append_right (by omega)]
    simp [hA]
  · simp [List.getElem?_append, hA, hB]
    rw [List.getElem_append_right (by omega)]
    simp [hA, List.getElem_cons]
    rw [List.getElem_append_right (by simp [hB])]
    simp [hB]

theorem segA_length (s : Controller) :
    (s.mode.encode ++ [Code.fromBool s.on] ++ s.fan.encode
      ++ [Code.fromBool s.swing] ++ [Code.fromBool s.sleep]
      ++ s.temperature.encode ++ s.timing.encode
      ++ [Code.fromBool s.strong] ++ [Code.fromBool s.light]
      ++ [Code.fromBool s.anion] ++ [Code.fromBool s.dry]
      ++ [Code.fromBool s.ventilate] ++ MAGIC_1 ++ MAGIC_3).length = 35 := by
  simp [bitCodes_length, Mode.encode, Fan.encode, Temperature.encode,
    TimerSetting.encode, MAGIC_1, MAGIC_3]

theorem segB_length (s : Controller) :
    (s.v_swing.encode ++ s.h_swing.encode ++ s.temperature_display.encode
      ++ [Code.fromBool s.i_feel] ++ MAGIC_4 ++ [Code.fromBool s.wifi]
      ++ List.replicate 11 Code.short ++ [Code.fromBool s.econo]
      ++ [Code.short] ++ bitCodes 4 (Controller.checksum s)).length = 32 := by
  simp [bitCodes_length, SwingMode.encode, TemperatureDisplay.encode, MAGIC_4]

theorem encode_markers (s : Controller) :
    (Controller.encode s)[0]? = some Code.start ∧
    (Controller.encode s)[36]? = some Code.cont ∧
    (Controller.encode s)[69]? = some Code.stop := by
  simp only [Controller.encode]
  exact frame_markers _ _ (segA_length s) (segB_length s)

theorem encode_length (s : Controller) : (Controller.encode s).length = 70 := by
  simp [Controller.encode, bitCodes_length, Mode.encode, Fan.encode,
    Temperature.encode, TimerSetting.encode, SwingMode.encode,
    TemperatureDisplay.encode, MAGIC_1, MAGIC_3, MAGIC_4]

/-! ### C1: encode/decode round trip -/

/-- C1: for every in-range device state (temperature in [16,30] as
produced by `from_centigrade`, timer `half_hours` at most 48), feeding
the 70 symbols of `Controller::encode` to `Controller::decode` returns
`Ok` of a state equal to the original in every field. -/
theorem c1_roundtrip (s : Controller)
    (h1 : 16 ≤ s.temperature.val) (h2 : s.temperature.val ≤ 30)
    (h3 : s.timing.half_hours ≤ 48) :
    Controller.decode (Controller.encode s) = .ok s := by
  obtain ⟨g0, g36, g69⟩ := encode_markers s
  rw [Controller.decode, if_pos (by rw [g0, g36, g69])]
  simp only [Controller.encode, Controller.decodeBody, Controller.decodeFields,
    Controller.decodeSegAB, Controller.decodeTail,
    List.append_assoc, List.cons_append, List.nil_append, List.singleton_append,
    bind_apply, pure_apply, pnext_cons, pexpect_cons, pnextBool_fromBool,
    mode_rt, fan_rt, temperature_rt _ _ h1 h2, timer_rt _ _ h3,
    Swingmode_rt, tdisplay_rt, magic1_rt, magic2_rt, magic3_rt,
    pnthBool_skip, readBits_bitCodes _ _ (checksum_lt s),
    ne_eq, eq_self_iff_true, not_true, if_false, Except.map]

/-- Witness: `c1_roundtrip` applied to the concrete `sampleState`. -/
theorem c1_roundtrip_witness :
    16 ≤ sampleState.temperature.val ∧ sampleState.temperature.val ≤ 30 ∧
    sampleState.timing.half_hours ≤ 48 ∧
    Controller.decode (Controller.encode sampleState) = .ok sampleState :=
  ⟨by decide, by decide, by decide,
    c1_roundtrip sampleState (by decide) (by decide) (by decide)⟩

/-! ### C5: encode always produces a well-shaped 70-symbol frame -/

theorem fromBool_pulse (b : Bool) :
    Code.fromBool b = Code.short ∨ Code.fromBool b = Code.long := by
  cases b
  · left; rfl
  · right; rfl

theorem bitCodes_pulse (k v : Nat) :
    ∀ c ∈ bitCodes k v, c = Code.short ∨ c = Code.long := by
  intro c hc
  simp only [bitCodes, List.mem_map] at hc
  obtain ⟨i, -, rfl⟩ := hc
  exact fromBool_pulse _

theorem frame_data (A B : List Code) (hA : A.length = 35) (hB : B.length = 32)
    (pA : ∀ c ∈ A, c = Code.short ∨ c = Code.long)
    (pB : ∀ c ∈ B, c = Code.short ∨ c = Code.long) :
    ∀ i c, ([Code.start] ++ A ++ [Code.cont] ++ B ++ [Code.stop])[i]? = some c →
      i ≠ 0 → i ≠ 36 → i ≠ 69 → c = Code.short ∨ c = Code.long := by
  intro i c h hi0 hi36 hi69
  have hX : ([Code.start] ++ A ++ [Code.cont] ++ B).length = 69 := by
    simp [hA, hB]
  have hY : ([Code.start] ++ A ++ [Code.cont]).length = 37 := by simp [hA]
  have hZ : ([Code.start] ++ A).length = 36 := by simp [hA]
  rw [List.getElem?_append, hX] at h
  split at h
  · rw [List.getElem?_append, hY] at h
    split at h
    · rw [List.getElem?_append, hZ] at h
      split at h
      · rw [List.getElem?_append, List.length_singleton] at h
        split at h
        · omega
        · exact pA c (List.getElem?_mem h)
      · omega
    · exact pB c (List.getElem?_mem h)
  · by_cases h69 : i = 69
    · exact absurd h69 hi69
    · rw [List.getElem?_eq_none (by simp; omega)] at h
      exact absurd h (by simp)

theorem segA_pulse (s : Controller) :
    ∀ c ∈ (s.mode.encode ++ [Code.fromBool s.on] ++ s.fan.encode
      ++ [Code.fromBool s.swing] ++ [Code.fromBool s.sleep]
      ++ s.temperature.encode ++ s.timing.encode
      ++ [Code.fromBool s.strong] ++ [Code.fromBool s.light]
      ++ [Code.fromBool s.anion] ++ [Code.fromBool s.dry]
      ++ [Code.fromBool s.ventilate] ++ MAGIC_1 ++ MAGIC_3),
      c = Code.short ∨ c = Code.long := by
  simp only [Mode.encode, Fan.encode, Temperature.encode, TimerSetting.encode,
    List.forall_mem_append]
  repeat' apply And.intro
  all_goals first
    | exact bitCodes_pulse _ _
    | decide
    | (intro c hc
       rw [List.mem_singleton] at hc
       subst hc
       exact fromBool_pulse _)

theorem segB_pulse (s : Controller) :
    ∀ c ∈ (s.v_swing.encode ++ s.h_swing.encode ++ s.temperature_display.encode
      ++ [Code.fromBool s.i_feel] ++ MAGIC_4 ++ [Code.fromBool s.wifi]
      ++ List.replicate 11 Code.short ++ [Code.fromBool s.econo]
      ++ [Code.short] ++ bitCodes 4 (Controller.checksum s)),
      c = Code.short ∨ c = Code.long := by
  simp only [SwingMode.encode, TemperatureDisplay.encode,
    List.forall_mem_append]
  repeat' apply And.intro
  all_goals first
    | exact bitCodes_pulse _ _
    | decide
    | (intro c hc
       rw [List.mem_singleton] at hc
       subst hc
       exact fromBool_pulse _)

/-- C5: for every in-range device state, `Controller::encode` (a pure
function of the state, hence deterministic) yields exactly 70 symbols
with `Start` at position 0, `Continue` at position 36, `End` at
position 69, and only `Short`/`Long` pulse symbols at every other
position. -/
theorem c5_frame_shape (s : Controller)
    (h1 : 16 ≤ s.temperature.val) (h2 : s.temperature.val ≤ 30)
    (h3 : s.timing.half_hours ≤ 48) :
    (Controller.encode s).length = 70 ∧
    (Controller.encode s)[0]? = some Code.start ∧
    (Controller.encode s)[36]? = some Code.cont ∧
    (Controller.encode s)[69]? = some Code.stop ∧
    (∀ i c, (Controller.encode s)[i]? = some c →
      i ≠ 0 → i ≠ 36 → i ≠ 69 → c = Code.short ∨ c = Code.long) := by
  obtain ⟨g0, g36, g69⟩ := encode_markers s
  refine ⟨encode_length s, g0, g36, g69, ?_⟩
  simp only [Controller.encode]
  exact frame_data _ _ (segA_length s) (segB_length s) (segA_pulse s)
    (segB_pulse s)

/-- Witness: `c5_frame_shape` applied to the concrete `sampleState`. -/
theorem c5_frame_shape_witness :
    16 ≤ sampleState.temperature.val ∧ sampleState.temperature.val ≤ 30 ∧
    sampleState.timing.half_hours ≤ 48 ∧
    ((Controller.encode sampleState).length = 70 ∧
      (Controller.encode sampleState)[0]? = some Code.start ∧
      (Controller.encode sampleState)[36]? = some Code.cont ∧
      (Controller.encode sampleState)[69]? = some Code.stop ∧
      (∀ i c, (Controller.encode sampleState)[i]? = some c →
        i ≠ 0 → i ≠ 36 → i ≠ 69 → c = Code.short ∨ c = Code.long)) :=
  ⟨by decide, by decide, by decide,
    c5_frame_shape sampleState (by decide) (by decide) (by decide)⟩

/-! ### Parser footprint lemmas (used by C8 and C9) -/

theorem PSpec.cast {w w2 : Nat} {p : P α} (h : PSpec w p) (e : w = w2) :
    PSpec w2 p := e ▸ h

theorem PSpec.bind {w1 w2 : Nat} {p : P α} {f : α → P β}
    (hp : PSpec w1 p) (hf : ∀ a, PSpec w2 (f a)) :
    PSpec (w1 + w2) (p >>= f) := by
  obtain ⟨hpf, hpe, hpc⟩ := hp
  refine ⟨?_, ?_, ?_⟩
  · intro l r hlen
    rw [bind_apply, bind_apply, hpf l r (by omega)]
    cases hpl : p l with
    | error e => simp [Except.map]
    | ok vr =>
      obtain ⟨v, rest⟩ := vr
      have hw2 : w2 ≤ rest.length := by
        have := hpc l v rest hpl
        omega
      simp only [Except.map]
      exact (hf v).1 rest r hw2
  · intro l hlen hbad
    rw [bind_apply] at hbad
    cases hpl : p l with
    | error e =>
      rw [hpl] at hbad
      simp only [Except.error.injEq] at hbad
      exact hpe l (by omega) (by rw [hpl, hbad])
    | ok vr =>
      obtain ⟨v, rest⟩ := vr
      rw [hpl] at hbad
      simp only at hbad
      have hw2 : w2 ≤ rest.length := by
        have := hpc l v rest hpl
        omega
      exact (hf v).2.1 rest hw2 hbad
  · intro l v rest h
    rw [bind_apply] at h
    cases hpl : p l with
    | error e => rw [hpl] at h; simp at h
    | ok vr =>
      obtain ⟨v1, rest1⟩ := vr
      rw [hpl] at h
      simp only at h
      have hc1 := hpc l v1 rest1 hpl
      have hc2 := (hf v1).2.2 rest1 v rest h
      omega

theorem pspec_pure (a : α) : PSpec 0 (pure a) := by
  refine ⟨fun l r h => rfl, fun l h => by simp [pure_apply], ?_⟩
  intro l v rest h
  rw [pure_apply] at h
  simp only [Except.ok.injEq, Prod.mk.injEq] at h
  simp [h.2]

theorem pspec_perr {α : Type} (e : DecodeError) (he : e ≠ .eof) (w : Nat) :
    PSpec w (perr e : P α) := by
  refine ⟨fun l r h => rfl, ?_, ?_⟩
  · intro l h hbad
    simp only [perr, Except.error.injEq] at hbad
    exact he hbad
  · intro l v rest h
    simp [perr] at h

theorem pspec_pofExcept (e : Except DecodeError α) (he : e ≠ .error .eof) :
    PSpec 0 (pofExcept e) := by
  cases e with
  | error err =>
    refine ⟨fun l r h => rfl, ?_, ?_⟩
    · intro l h hbad
      simp only [pofExcept, Except.error.injEq] at hbad
      exact he (by rw [hbad])
    · intro l v rest h
      simp [pofExcept] at h
  | ok v =>
    refine ⟨fun l r h => rfl, fun l h => by simp [pofExcept], ?_⟩
    intro l v1 rest h
    simp only [pofExcept, Except.ok.injEq, Prod.mk.injEq] at h
    simp [h.2]

theorem pspec_pnext : PSpec 1 pnext := by
  refine ⟨?_, ?_, ?_⟩
  · intro l r hlen
    cases l with
    | nil => simp at hlen
    | cons c l => rfl
  · intro l hlen
    cases l with
    | nil => simp at hlen
    | cons c l => simp [pnext]
  · intro l v rest h
    cases l with
    | nil => simp [pnext] at h
    | cons c l =>
      simp only [pnext, Except.ok.injEq, Prod.mk.injEq] at h
      simp [h.2]

theorem toByte_ne_eof (c : Code) : c.toByte ≠ .error .eof := by
  cases c <;> simp [Code.toByte]

theorem toBool_ne_eof (c : Code) : c.toBool ≠ .error .eof := by
  cases c <;> simp [Code.toBool]

theorem pspec_pnextBit : PSpec 1 pnextBit :=
  PSpec.bind pspec_pnext fun c => pspec_pofExcept c.toByte (toByte_ne_eof c)

theorem pspec_pnextBool : PSpec 1 pnextBool :=
  PSpec.bind pspec_pnext fun c => pspec_pofExcept c.toBool (toBool_ne_eof c)

theorem pspec_expectTail (c c2 : Code) :
    PSpec 0 ((if c2 = c then pure () else perr .invalidMarker) : P Unit) := by
  split
  · exact pspec_pure ()
  · exact pspec_perr .invalidMarker (by simp) 0

theorem pspec_pexpect (c : Code) : PSpec 1 (pexpect c) :=
  PSpec.cast (PSpec.bind pspec_pnext fun c2 => pspec_expectTail c c2)
    (by norm_num)

theorem pspec_pnth (n : Nat) : PSpec (n + 1) (pnth n) := by
  induction n with
  | zero => exact pspec_pnext
  | succ n ih =>
    obtain ⟨ihf, ihe, ihc⟩ := ih
    refine ⟨?_, ?_, ?_⟩
    · intro l r hlen
      cases l with
      | nil => simp at hlen
      | cons c l =>
        show pnth n (l ++ r) = _
        rw [ihf l r (by simp at hlen; omega)]
        rfl
    · intro l hlen
      cases l with
      | nil => simp at hlen
      | cons c l =>
        show pnth n l ≠ .error .eof
        exact ihe l (by simp at hlen; omega)
    · intro l v rest h
      cases l with
      | nil => simp [pnth] at h
      | cons c l =>
        have := ihc l v rest h
        simp
        omega

theorem pspec_pnthBool (n : Nat) : PSpec (n + 1) (pnthBool n) :=
  PSpec.cast
    (PSpec.bind (pspec_pnth n) fun c => pspec_pofExcept c.toBool (toBool_ne_eof c))
    (by omega)

theorem pspec_readBits (n : Nat) : ∀ i acc : Nat, PSpec n (readBits n i acc) := by
  induction n with
  | zero => exact fun i acc => pspec_pure acc
  | succ n ih =>
    intro i acc
    exact PSpec.cast
      (PSpec.bind pspec_pnext fun c =>
        PSpec.bind (pspec_pofExcept c.toByte (toByte_ne_eof c)) fun t =>
          ih (i + 1) (acc ||| t <<< i))
      (by omega)

theorem pspec_modeOfBits (v : Nat) : PSpec 0 (Mode.ofBits v) := by
  unfold Mode.ofBits
  split
  all_goals first
    | exact pspec_pure _
    | exact pspec_perr .invalidMode (by simp) 0

theorem pspec_mode : PSpec 3 Mode.decode :=
  PSpec.cast
    (PSpec.bind pspec_pnextBit fun a =>
      PSpec.bind pspec_pnextBit fun b =>
        PSpec.bind pspec_pnextBit fun c => pspec_modeOfBits _)
    (by norm_num)

theorem pspec_fanOfBits (v : Nat) : PSpec 0 (Fan.ofBits v) := by
  unfold Fan.ofBits
  split
  all_goals first
    | exact pspec_pure _
    | exact pspec_perr .invalidFan (by simp) 0

theorem pspec_fan : PSpec 2 Fan.decode :=
  PSpec.cast
    (PSpec.bind pspec_pnextBit fun a =>
      PSpec.bind pspec_pnextBit fun b => pspec_fanOfBits _)
    (by norm_num)

theorem pspec_tempTail (a : Nat) :
    PSpec 0 ((if a > 30 - 16 then perr .invalidTemperature
      else pure ⟨a + 16⟩) : P Temperature) := by
  split
  · exact pspec_perr .invalidTemperature (by simp) 0
  · exact pspec_pure _

theorem pspec_temperature : PSpec 4 Temperature.decode :=
  PSpec.cast
    (PSpec.bind (pspec_readBits 4 0 0) fun a => pspec_tempTail a)
    (by norm_num)

theorem tryFrom_ne_eof (a : Nat) : TimerSetting.tryFrom a ≠ .error .eof := by
  simp only [TimerSetting.tryFrom]
  split <;> simp

theorem pspec_timer : PSpec 8 TimerSetting.decode :=
  PSpec.cast
    (PSpec.bind (pspec_readBits 8 0 0) fun a =>
      pspec_pofExcept _ (tryFrom_ne_eof a))
    (by norm_num)

theorem pspec_swing : PSpec 4 SwingMode.decode :=
  PSpec.cast
    (PSpec.bind (pspec_readBits 4 0 0) fun a => pspec_pure _)
    (by norm_num)

theorem pspec_tdOfBools (a b : Bool) : PSpec 0 (TemperatureDisplay.ofBools a b) := by
  cases a <;> cases b <;> exact pspec_pure _

theorem pspec_tdisplay : PSpec 2 TemperatureDisplay.decode :=
  PSpec.cast
    (PSpec.bind pspec_pnextBool fun a =>
      PSpec.bind pspec_pnextBool fun b => pspec_tdOfBools a b)
    (by norm_num)


theorem pspec_magic1 : PSpec 7 check_magic_code1 := by
  refine ⟨?_, ?_, ?_⟩
  · intro l r hlen
    iterate 7
      rcases l with _ | ⟨c, l⟩
      · simp at hlen
    simp only [List.cons_append]
    simp only [check_magic_code1]
    split <;> rename_i h <;> simp [h, Except.map]
  · intro l hlen
    iterate 7
      rcases l with _ | ⟨c, l⟩
      · simp at hlen
    simp only [check_magic_code1]
    split <;> simp
  · intro l v rest h
    iterate 7
      rcases l with _ | ⟨c, l⟩
      · simp [check_magic_code1] at h
    simp only [check_magic_code1] at h
    split at h
    · simp only [Except.ok.injEq, Prod.mk.injEq] at h
      simp [h.2]
    · simp at h

theorem pspec_magic2 : PSpec 3 check_magic_code2 := by
  refine ⟨?_, ?_, ?_⟩
  · intro l r hlen
    iterate 3
      rcases l with _ | ⟨c, l⟩
      · simp at hlen
    simp only [List.cons_append]
    simp only [check_magic_code2]
    split <;> rename_i h <;> simp [h, Except.map]
  · intro l hlen
    iterate 3
      rcases l with _ | ⟨c, l⟩
      · simp at hlen
    simp only [check_magic_code2]
    split <;> simp
  · intro l v rest h
    iterate 3
      rcases l with _ | ⟨c, l⟩
      · simp [check_magic_code2] at h
    simp only [check_magic_code2] at h
    split at h
    · simp only [Except.ok.injEq, Prod.mk.injEq] at h
      simp [h.2]
    · simp at h

theorem pspec_magic3 : PSpec 3 check_magic_code3 := by
  refine ⟨?_, ?_, ?_⟩
  · intro l r hlen
    iterate 3
      rcases l with _ | ⟨c, l⟩
      · simp at hlen
    simp only [List.cons_append]
    simp only [check_magic_code3]
    split <;> rename_i h <;> simp [h, Except.map]
  · intro l hlen
    iterate 3
      rcases l with _ | ⟨c, l⟩
      · simp at hlen
    simp only [check_magic_code3]
    split <;> simp
  · intro l v rest h
    iterate 3
      rcases l with _ | ⟨c, l⟩
      · simp [check_magic_code3] at h
    simp only [check_magic_code3] at h
    split at h
    · simp only [Except.ok.injEq, Prod.mk.injEq] at h
      simp [h.2]
    · simp at h

theorem pspec_segAB : PSpec 52 Controller.decodeSegAB :=
  PSpec.cast
    (PSpec.bind (pspec_pexpect .start) fun _ =>
     PSpec.bind pspec_mode fun _ =>
     PSpec.bind pspec_pnextBool fun _ =>
     PSpec.bind pspec_fan fun _ =>
     PSpec.bind pspec_pnextBool fun _ =>
     PSpec.bind pspec_pnextBool fun _ =>
     PSpec.bind pspec_temperature fun _ =>
     PSpec.bind pspec_timer fun _ =>
     PSpec.bind pspec_pnextBool fun _ =>
     PSpec.bind pspec_pnextBool fun _ =>
     PSpec.bind pspec_pnextBool fun _ =>
     PSpec.bind pspec_pnextBool fun _ =>
     PSpec.bind pspec_pnextBool fun _ =>
     PSpec.bind pspec_magic1 fun _ =>
     PSpec.bind pspec_magic2 fun _ =>
     PSpec.bind (pspec_pexpect .cont) fun _ =>
     PSpec.bind pspec_swing fun _ =>
     PSpec.bind pspec_swing fun _ =>
     PSpec.bind pspec_tdisplay fun _ =>
     PSpec.bind pspec_pnextBool fun _ =>
     PSpec.bind pspec_magic3 fun _ =>
     PSpec.bind pspec_pnextBool fun _ =>
     pspec_pure _)
    (by norm_num)

theorem pspec_fields : PSpec 65 Controller.decodeFields := by
  refine PSpec.cast (@PSpec.bind _ _ 52 13 _ _ pspec_segAB ?_) (by norm_num)
  rintro ⟨mode, «on», fan, sw, sl, te, ti, hu, li, an, dr, ve, vs, hs, td,
    ifl, wf⟩
  exact PSpec.cast
    (PSpec.bind (pspec_pnthBool 11) fun ps =>
      PSpec.bind pspec_pnext fun _ => pspec_pure _)
    (by norm_num)

theorem pspec_tailTail (v : Controller) (cs : Nat) :
    PSpec 1 ((if cs ≠ Controller.checksum v then
        perr (.checksum (cs <<< 4 ||| Controller.checksum v))
      else do
        pexpect .stop
        pure v) : P Controller) := by
  split
  · exact pspec_perr _ (by simp) 1
  · exact PSpec.cast
      (PSpec.bind (pspec_pexpect .stop) fun _ => pspec_pure v) (by norm_num)

theorem pspec_tail (v : Controller) : PSpec 5 (Controller.decodeTail v) :=
  PSpec.cast (PSpec.bind (pspec_readBits 4 0 0) (pspec_tailTail v))
    (by norm_num)

theorem pspec_body : PSpec 70 Controller.decodeBody :=
  PSpec.cast (PSpec.bind pspec_fields pspec_tail) (by norm_num)

theorem pnth_append (n : Nat) (b l : List Code) (hb : b.length = n) :
    pnth n (b ++ l) = pnext l := by
  induction n generalizing b with
  | zero =>
    have hnil : b = [] := List.length_eq_zero.mp hb
    subst hnil
    rfl
  | succ n ih =>
    rcases b with _ | ⟨c, b⟩
    · simp at hb
    · show pnth n (b ++ l) = pnext l
      exact ih b (by simpa using hb)

/-! ### C8: no Eof on full-length input -/

/-- C8: on any 70-element symbol sequence `Controller::decode` never
returns `Eof`: the decoder consumes exactly 70 symbols
(1 + 35 + 1 + 32 + 1), so every `Eof` branch is unreachable under the
`[Code; 70]` input precondition. -/
theorem c8_decode_no_eof (codes : List Code) (h : codes.length = 70) :
    Controller.decode codes ≠ .error .eof := by
  unfold Controller.decode
  split
  · intro hbad
    have hne := pspec_body.2.1 codes (by omega)
    cases hb : Controller.decodeBody codes with
    | error e =>
      rw [hb] at hbad
      simp only [Except.map, Except.error.injEq] at hbad
      exact hne (by rw [hb, hbad])
    | ok vr =>
      rw [hb] at hbad
      simp [Except.map] at hbad
  · simp

/-- Witness: `c8_decode_no_eof` applied to a concrete 70-symbol frame. -/
theorem c8_decode_no_eof_witness :
    (Controller.encode sampleState).length = 70 ∧
    Controller.decode (Controller.encode sampleState) ≠ .error .eof :=
  ⟨by decide, c8_decode_no_eof (Controller.encode sampleState) (by decide)⟩

/-! ### C9: the reserved symbol positions are never inspected -/

/-- C9: `Controller::decode` never inspects the 12 reserved positions
(52-62, the 11 symbols after the wifi bit, and 64, the symbol after the
econo bit): any two 70-symbol frames that agree everywhere else decode
to the same result, whatever symbols (pulses or markers) sit there. -/
theorem c9_reserved_ignored (cs1 cs2 : List Code)
    (h1 : cs1.length = 70) (h2 : cs2.length = 70)
    (hag : ∀ i, i < 70 → (i < 52 ∨ i = 63 ∨ 65 ≤ i) → cs1[i]? = cs2[i]?) :
    Controller.decode cs1 = Controller.decode cs2 := by
  have htake : cs2.take 52 = cs1.take 52 := by
    apply List.ext_getElem?
    intro n
    by_cases hn : n < 52
    · rw [List.getElem?_take, List.getElem?_take, if_pos hn, if_pos hn]
      exact (hag n (by omega) (by omega)).symm
    · rw [List.getElem?_take, List.getElem?_take, if_neg hn, if_neg hn]
  have hdrop65 : cs1.drop 65 = cs2.drop 65 := by
    apply List.ext_getElem?
    intro n
    rw [List.getElem?_drop, List.getElem?_drop]
    by_cases hn : 65 + n < 70
    · exact hag (65 + n) hn (by omega)
    · rw [List.getElem?_eq_none (by omega), List.getElem?_eq_none (by omega)]
  -- split off the element at 63 and at 64 in both lists
  rcases hd63a : cs1.drop 63 with _ | ⟨x1, r1a⟩
  · have := congrArg List.length hd63a
    simp [h1] at this
  rcases hd63b : cs2.drop 63 with _ | ⟨x2, r1b⟩
  · have := congrArg List.length hd63b
    simp [h2] at this
  have hx : x1 = x2 := by
    have h0a : (cs1.drop 63)[0]? = some x1 := by rw [hd63a]; simp
    have h0b : (cs2.drop 63)[0]? = some x2 := by rw [hd63b]; simp
    rw [List.getElem?_drop] at h0a h0b
    simp only [Nat.add_zero] at h0a h0b
    rw [hag 63 (by omega) (by omega)] at h0a
    rw [h0a] at h0b
    exact Option.some.inj h0b
  subst hx
  have hr1a : r1a = cs1.drop 64 := by
    have hdd : (cs1.drop 63).drop 1 = cs1.drop 64 := by
      rw [List.drop_drop]
    rw [hd63a] at hdd
    simpa using hdd
  have hr1b : r1b = cs2.drop 64 := by
    have hdd : (cs2.drop 63).drop 1 = cs2.drop 64 := by
      rw [List.drop_drop]
    rw [hd63b] at hdd
    simpa using hdd
  rcases hd64a : cs1.drop 64 with _ | ⟨y1, r2a⟩
  · have := congrArg List.length hd64a
    simp [h1] at this
  rcases hd64b : cs2.drop 64 with _ | ⟨y2, r2b⟩
  · have := congrArg List.length hd64b
    simp [h2] at this
  have hr2a : r2a = cs1.drop 65 := by
    have hdd : (cs1.drop 64).drop 1 = cs1.drop 65 := by
      rw [List.drop_drop]
    rw [hd64a] at hdd
    simpa using hdd
  have hr2b : r2b = cs2.drop 65 := by
    have hdd : (cs2.drop 64).drop 1 = cs2.drop 65 := by
      rw [List.drop_drop]
    rw [hd64b] at hdd
    simpa using hdd
  -- full decompositions
  have hsplit1 : cs1.drop 52 = (cs1.drop 52).take 11 ++ (x1 :: (y1 :: cs1.drop 65)) := by
    have hdd : (cs1.drop 52).drop 11 = cs1.drop 63 := by
      rw [List.drop_drop]
    conv_lhs => rw [← List.take_append_drop 11 (cs1.drop 52)]
    rw [hdd, hd63a, hr1a, hd64a, hr2a]
  have hsplit2 : cs2.drop 52 = (cs2.drop 52).take 11 ++ (x1 :: (y2 :: cs2.drop 65)) := by
    have hdd : (cs2.drop 52).drop 11 = cs2.drop 63 := by
      rw [List.drop_drop]
    conv_lhs => rw [← List.take_append_drop 11 (cs2.drop 52)]
    rw [hdd, hd63b, hr1b, hd64b, hr2b]
  have ht1 : cs1 = cs1.take 52 ++ ((cs1.drop 52).take 11 ++ (x1 :: (y1 :: cs1.drop 65))) := by
    conv_lhs => rw [← List.take_append_drop 52 cs1]
    rw [← hsplit1]
  have ht2 : cs2 = cs1.take 52 ++ ((cs2.drop 52).take 11 ++ (x1 :: (y2 :: cs2.drop 65))) := by
    conv_lhs => rw [← List.take_append_drop 52 cs2]
    rw [htake, ← hsplit2]
  have halen : (cs1.take 52).length = 52 := by simp [h1]
  have hb1len : ((cs1.drop 52).take 11).length = 11 := by simp [h1]
  have hb2len : ((cs2.drop 52).take 11).length = 11 := by simp [h2]
  -- locality of the prefix parse
  have hloc1 : Controller.decodeSegAB cs1
      = Except.map (fun vr => (vr.1, vr.2 ++ ((cs1.drop 52).take 11 ++ (x1 :: (y1 :: cs1.drop 65)))))
        (Controller.decodeSegAB (cs1.take 52)) := by
    conv_lhs => rw [ht1]
    exact pspec_segAB.1 _ _ (by rw [halen])
  have hloc2 : Controller.decodeSegAB cs2
      = Except.map (fun vr => (vr.1, vr.2 ++ ((cs2.drop 52).take 11 ++ (x1 :: (y2 :: cs2.drop 65)))))
        (Controller.decodeSegAB (cs1.take 52)) := by
    conv_lhs => rw [ht2]
    exact pspec_segAB.1 _ _ (by rw [halen])
  have hfields : Controller.decodeFields cs1 = Controller.decodeFields cs2 := by
    unfold Controller.decodeFields
    rw [bind_apply, bind_apply, hloc1, hloc2]
    cases hsa : Controller.decodeSegAB (cs1.take 52) with
    | error e => simp [Except.map]
    | ok vr =>
      obtain ⟨v, rest⟩ := vr
      have hrest : rest = [] := by
        have hc := pspec_segAB.2.2 _ v rest hsa
        rw [halen] at hc
        exact List.length_eq_zero.mp (by omega)
      subst hrest
      simp only [Except.map, List.nil_append]
      obtain ⟨mo, onn, fa, sw, sl, te, ti, hu, li, an, dr, ve, vs, hs, td,
        ifl, wf⟩ := v
      simp only []
      rw [bind_apply, bind_apply]
      have hp1 : pnthBool 11 ((cs1.drop 52).take 11 ++ (x1 :: (y1 :: cs1.drop 65)))
          = pofExcept x1.toBool (y1 :: cs1.drop 65) := by
        unfold pnthBool
        rw [bind_apply, pnth_append 11 _ _ hb1len, pnext_cons]
      have hp2 : pnthBool 11 ((cs2.drop 52).take 11 ++ (x1 :: (y2 :: cs2.drop 65)))
          = pofExcept x1.toBool (y2 :: cs2.drop 65) := by
        unfold pnthBool
        rw [bind_apply, pnth_append 11 _ _ hb2len, pnext_cons]
      rw [hp1, hp2]
      cases hxb : x1.toBool with
      | error e => simp [pofExcept]
      | ok bx =>
        simp only [pofExcept]
        rw [bind_apply, bind_apply, pnext_cons, pnext_cons]
        rw [hdrop65]
  have hbody : Controller.decodeBody cs1 = Controller.decodeBody cs2 := by
    unfold Controller.decodeBody
    rw [bind_apply, bind_apply, hfields]
  unfold Controller.decode
  rw [hag 0 (by omega) (by omega), hag 36 (by omega) (by omega),
    hag 69 (by omega) (by omega), hbody]

/-- Witness: `c9_reserved_ignored` applied to `encode sampleState` and
the same frame with junk (markers included) in reserved positions. -/
theorem c9_reserved_ignored_witness :
    (Controller.encode sampleState).length = 70 ∧
    reservedJunkFrame.length = 70 ∧
    (∀ i, i < 70 → (i < 52 ∨ i = 63 ∨ 65 ≤ i) →
      (Controller.encode sampleState)[i]? = reservedJunkFrame[i]?) ∧
    Controller.decode (Controller.encode sampleState)
      = Controller.decode reservedJunkFrame :=
  ⟨by decide, by decide, by decide,
    c9_reserved_ignored (Controller.encode sampleState) reservedJunkFrame
      (by decide) (by decide) (by decide)⟩

/-! ### C6: checksum mismatch error payload -/

/-- C6: when the marker, field and magic checks of `Controller::decode`
all pass but the checksum recomputed from the decoded state differs from
the transmitted 4-bit checksum, decode returns
`Checksum(transmitted << 4 | computed)`; when they agree, decode never
returns a `Checksum` error. -/
theorem c6_checksum_error :
    (∀ (codes : List Code) (v : Controller) (l1 : List Code) (t : Nat)
        (l2 : List Code),
      codes[0]? = some Code.start → codes[36]? = some Code.cont →
      codes[69]? = some Code.stop →
      Controller.decodeFields codes = .ok (v, l1) →
      readBits 4 0 0 l1 = .ok (t, l2) →
      t ≠ Controller.checksum v →
      Controller.decode codes
        = .error (.checksum (t <<< 4 ||| Controller.checksum v))) ∧
    (∀ (codes : List Code) (v : Controller) (l1 : List Code) (t : Nat)
        (l2 : List Code),
      codes[0]? = some Code.start → codes[36]? = some Code.cont →
      codes[69]? = some Code.stop →
      Controller.decodeFields codes = .ok (v, l1) →
      readBits 4 0 0 l1 = .ok (t, l2) →
      t = Controller.checksum v →
      ∀ x, Controller.decode codes ≠ .error (.checksum x)) := by
  constructor
  · intro codes v l1 t l2 g0 g36 g69 hf hr hne
    unfold Controller.decode
    rw [if_pos (by rw [g0, g36, g69])]
    simp only [Controller.decodeBody, Controller.decodeTail, bind_apply,
      hf, hr]
    rw [if_pos hne]
    simp [perr, Except.map]
  · intro codes v l1 t l2 g0 g36 g69 hf hr heq x
    unfold Controller.decode
    rw [if_pos (by rw [g0, g36, g69])]
    simp only [Controller.decodeBody, Controller.decodeTail, bind_apply,
      hf, hr]
    rw [if_neg (by simp [heq])]
    rcases l2 with _ | ⟨c, rest⟩
    · simp [pexpect, bind_apply, pnext, Except.map]
    · by_cases hc : c = Code.stop
      · subst hc
        simp [pexpect, bind_apply, pnext, pure_apply, Except.map]
      · simp [pexpect, bind_apply, pnext, pure_apply, perr, hc, Except.map]

/-- Witness: both halves of `c6_checksum_error` at concrete frames: the
tampered frame (transmitted nibble 4 vs computed 5 gives payload 69)
and the untampered frame (no `Checksum` error). -/
theorem c6_checksum_error_witness :
    (tamperedFrame[0]? = some Code.start ∧
      tamperedFrame[36]? = some Code.cont ∧
      tamperedFrame[69]? = some Code.stop ∧
      Controller.decodeFields tamperedFrame
        = .ok (sampleState,
            [Code.short, Code.short, Code.long, Code.short, Code.stop]) ∧
      readBits 4 0 0 [Code.short, Code.short, Code.long, Code.short, Code.stop]
        = .ok (4, [Code.stop]) ∧
      (4 : Nat) ≠ Controller.checksum sampleState ∧
      Controller.decode tamperedFrame
        = .error (.checksum (4 <<< 4 ||| Controller.checksum sampleState))) ∧
    Controller.decode (Controller.encode sampleState)
      ≠ .error (.checksum 0) :=
  ⟨⟨by decide, by decide, by decide, by decide, by decide, by decide,
    c6_checksum_error.1 tamperedFrame sampleState
      [Code.short, Code.short, Code.long, Code.short, Code.stop] 4 [Code.stop]
      (by decide) (by decide) (by decide) (by decide) (by decide) (by decide)⟩,
   c6_checksum_error.2 (Controller.encode sampleState) sampleState
      [Code.long, Code.short, Code.long, Code.short, Code.stop] 5 [Code.stop]
      (by decide) (by decide) (by decide) (by decide) (by decide) (by decide) 0⟩

/-! ### C7: magic block validation -/

theorem length7_explode (l : List Code) (h : l.length = 7) :
    ∃ c0 c1 c2 c3 c4 c5 c6, l = [c0, c1, c2, c3, c4, c5, c6] := by
  iterate 7
    rcases l with _ | ⟨c, l⟩
    · simp at h
  rcases l with _ | ⟨c, l⟩
  · exact ⟨_, _, _, _, _, _, _, rfl⟩
  · simp at h

theorem length3_explode (l : List Code) (h : l.length = 3) :
    ∃ c0 c1 c2, l = [c0, c1, c2] := by
  iterate 3
    rcases l with _ | ⟨c, l⟩
    · simp at h
  rcases l with _ | ⟨c, l⟩
  · exact ⟨_, _, _, rfl⟩
  · simp at h

/-- C7: the 7-symbol first magic block is accepted exactly when it
equals one of the two fixed patterns `MAGIC_1`/`MAGIC_2` (set
membership); the 3-symbol second and third blocks are accepted exactly
when they equal `MAGIC_3` resp. `MAGIC_4`; a non-matching block of the
right width yields `InvalidMagic(1)`, `InvalidMagic(2)` or
`InvalidMagic(3)` identifying the failing check. -/
theorem c7_magic_blocks :
    (∀ (l r : List Code) (u : Unit),
      check_magic_code1 l = .ok (u, r) ↔
        ∃ b, (b = MAGIC_1 ∨ b = MAGIC_2) ∧ l = b ++ r) ∧
    (∀ (b r : List Code), b.length = 7 → ¬(b = MAGIC_1 ∨ b = MAGIC_2) →
      check_magic_code1 (b ++ r) = .error (.invalidMagic 1)) ∧
    (∀ (l r : List Code) (u : Unit),
      check_magic_code2 l = .ok (u, r) ↔ l = MAGIC_3 ++ r) ∧
    (∀ (b r : List Code), b.length = 3 → b ≠ MAGIC_3 →
      check_magic_code2 (b ++ r) = .error (.invalidMagic 2)) ∧
    (∀ (l r : List Code) (u : Unit),
      check_magic_code3 l = .ok (u, r) ↔ l = MAGIC_4 ++ r) ∧
    (∀ (b r : List Code), b.length = 3 → b ≠ MAGIC_4 →
      check_magic_code3 (b ++ r) = .error (.invalidMagic 3)) := by
  refine ⟨?_, ?_, ?_, ?_, ?_, ?_⟩
  · intro l r u
    constructor
    · intro h
      iterate 7
        rcases l with _ | ⟨c, l⟩
        · simp [check_magic_code1] at h
      simp only [check_magic_code1] at h
      split at h
      · rename_i hm
        simp only [Except.ok.injEq, Prod.mk.injEq] at h
        exact ⟨_, hm, by rw [h.2]; rfl⟩
      · simp at h
    · rintro ⟨b, hb | hb, rfl⟩ <;> subst hb <;> rfl
  · intro b r h7 hnm
    obtain ⟨c0, c1, c2, c3, c4, c5, c6, rfl⟩ := length7_explode b h7
    simp only [List.cons_append, List.nil_append, check_magic_code1]
    rw [if_neg hnm]
  · intro l r u
    constructor
    · intro h
      iterate 3
        rcases l with _ | ⟨c, l⟩
        · simp [check_magic_code2] at h
      simp only [check_magic_code2] at h
      split at h
      · rename_i hm
        simp only [Except.ok.injEq, Prod.mk.injEq] at h
        rw [← hm, h.2]
        rfl
      · simp at h
    · rintro rfl
      rfl
  · intro b r h3 hnm
    obtain ⟨c0, c1, c2, rfl⟩ := length3_explode b h3
    simp only [List.cons_append, List.nil_append, check_magic_code2]
    rw [if_neg hnm]
  · intro l r u
    constructor
    · intro h
      iterate 3
        rcases l with _ | ⟨c, l⟩
        · simp [check_magic_code3] at h
      simp only [check_magic_code3] at h
      split at h
      · rename_i hm
        simp only [Except.ok.injEq, Prod.mk.injEq] at h
        rw [← hm, h.2]
        rfl
      · simp at h
    · rintro rfl
      rfl
  · intro b r h3 hnm
    obtain ⟨c0, c1, c2, rfl⟩ := length3_explode b h3
    simp only [List.cons_append, List.nil_append, check_magic_code3]
    rw [if_neg hnm]

/-- Witness: `c7_magic_blocks` at concrete blocks: the alternate
pattern `MAGIC_2` is accepted; all-short / all-long blocks are rejected
with the right block id. -/
theorem c7_magic_blocks_witness :
    check_magic_code1 (MAGIC_2 ++ [Code.stop]) = .ok ((), [Code.stop]) ∧
    ((List.replicate 7 Code.short).length = 7 ∧
      ¬(List.replicate 7 Code.short = MAGIC_1 ∨
        List.replicate 7 Code.short = MAGIC_2) ∧
      check_magic_code1 (List.replicate 7 Code.short ++ [])
        = .error (.invalidMagic 1)) ∧
    (([Code.long, Code.long, Code.long] : List Code).length = 3 ∧
      [Code.long, Code.long, Code.long] ≠ MAGIC_3 ∧
      check_magic_code2 ([Code.long, Code.long, Code.long] ++ [])
        = .error (.invalidMagic 2)) ∧
    ([Code.long, Code.long, Code.long] ≠ MAGIC_4 ∧
      check_magic_code3 ([Code.long, Code.long, Code.long] ++ [])
        = .error (.invalidMagic 3)) :=
  ⟨(c7_magic_blocks.1 (MAGIC_2 ++ [Code.stop]) [Code.stop] ()).mpr
      ⟨MAGIC_2, Or.inr rfl, rfl⟩,
   ⟨by decide, by decide,
    c7_magic_blocks.2.1 (List.replicate 7 Code.short) [] (by decide)
      (by decide)⟩,
   ⟨by decide, by decide,
    c7_magic_blocks.2.2.2.1 [Code.long, Code.long, Code.long] [] (by decide)
      (by decide)⟩,
   ⟨by decide,
    c7_magic_blocks.2.2.2.2.2 [Code.long, Code.long, Code.long] [] (by decide)
      (by decide)⟩⟩

/-! ### C3: timer decode range -/

theorem tryFrom_le59 (v : Nat) (ts : TimerSetting)
    (h : TimerSetting.tryFrom v = .ok ts) : ts.half_hours ≤ 59 := by
  simp only [TimerSetting.tryFrom] at h
  split at h
  · simp at h
  · rename_i hcond
    simp only [Bool.or_eq_true, decide_eq_true_eq, not_or] at hcond
    have h1 : v &&& 1 ≤ 1 := Nat.and_le_right
    have h3 : (v >>> 1) &&& 0b11 ≤ 2 := by omega
    simp only [Except.ok.injEq] at h
    rw [← h]
    simp only
    omega

/-- C3 counterexample: the packed byte 149 (tens = 2, units = 9,
half = 1) passes the `tens <= 2`/`units <= 9` checks yet decodes to
`half_hours = 59 > 48`, refuting the claimed `half_hours` in `0..48`
invariant. -/
theorem c3_timer_counterexample :
    TimerSetting.tryFrom 149 = .ok ⟨false, 59⟩ ∧
    TimerSetting.decode (bitCodes 8 149) = .ok (⟨false, 59⟩, []) ∧
    ¬(59 ≤ 48) := by decide

/-- C3 as amended: timer decoding rejects a packed byte exactly when
its tens field exceeds 2 or its units field exceeds 9, with
`InvalidTimerSetting`; every timer value a successful decode produces
has `half_hours` at most 59 (not 48). -/
theorem c3_timer_amended :
    (∀ v : Nat, v < 256 →
      (TimerSetting.tryFrom v = .error .invalidTimerSetting ↔
        2 < (v >>> 1) &&& 0b11 ∨ 9 < v >>> 4)) ∧
    (∀ v ts, TimerSetting.tryFrom v = .ok ts → ts.half_hours ≤ 59) ∧
    (∀ l ts rest, TimerSetting.decode l = .ok (ts, rest) →
      ts.half_hours ≤ 59) := by
  refine ⟨by decide, tryFrom_le59, ?_⟩
  intro l ts rest h
  simp only [TimerSetting.decode, bind_apply] at h
  cases hr : readBits 8 0 0 l with
  | error e => rw [hr] at h; simp at h
  | ok vr =>
    obtain ⟨v, rest1⟩ := vr
    rw [hr] at h
    simp only at h
    cases ht : TimerSetting.tryFrom v with
    | error e => rw [ht] at h; simp [pofExcept] at h
    | ok ts2 =>
      rw [ht] at h
      simp only [pofExcept, Except.ok.injEq, Prod.mk.injEq] at h
      rw [← h.1]
      exact tryFrom_le59 v ts2 ht

/-- Witness: `c3_timer_amended` at the packed byte 149. -/
theorem c3_timer_amended_witness :
    (149 : Nat) < 256 ∧
    (TimerSetting.tryFrom 149 = .error .invalidTimerSetting ↔
      2 < ((149 : Nat) >>> 1) &&& 0b11 ∨ 9 < (149 : Nat) >>> 4) ∧
    (⟨false, 59⟩ : TimerSetting).half_hours ≤ 59 :=
  ⟨by decide, c3_timer_amended.1 149 (by decide),
    c3_timer_amended.2.2 (bitCodes 8 149) ⟨false, 59⟩ [] (by decide)⟩

/-! ### C4: temperature range -/

/-- C4: `Temperature::from_centigrade d` yields no value exactly when
`d < 16` or `d > 30`; `Temperature::decode` rejects the one 4-bit raw
value above 14 with `InvalidTemperature`; and every temperature a
successful decode produces lies in [16, 30]. -/
theorem c4_temperature :
    (∀ d : Nat, Temperature.fromCentigrade d = none ↔ (d < 16 ∨ 30 < d)) ∧
    (∀ v : Nat, v < 16 → 14 < v → ∀ r : List Code,
      Temperature.decode (bitCodes 4 v ++ r) = .error .invalidTemperature) ∧
    (∀ l t rest, Temperature.decode l = .ok (t, rest) →
      16 ≤ t.val ∧ t.val ≤ 30) := by
  refine ⟨?_, ?_, ?_⟩
  · intro d
    simp only [Temperature.fromCentigrade]
    split
    · rename_i hc
      simp at hc ⊢
      omega
    · rename_i hc
      simp at hc ⊢
      omega
  · intro v h16 h14 r
    interval_cases v
    rfl
  · intro l t rest h
    simp only [Temperature.decode, bind_apply] at h
    cases hr : readBits 4 0 0 l with
    | error e => rw [hr] at h; simp at h
    | ok vr =>
      obtain ⟨v, rest1⟩ := vr
      rw [hr] at h
      simp only at h
      split at h
      · simp [perr] at h
      · rename_i hc
        simp only [pure_apply, Except.ok.injEq, Prod.mk.injEq] at h
        rw [← h.1]
        simp only
        omega

/-- Witness: `c4_temperature` at 15 °C (rejected at construction), raw
nibble 15 (rejected at decode) and raw nibble 9 (decodes to 25 °C). -/
theorem c4_temperature_witness :
    (Temperature.fromCentigrade 15 = none ↔ ((15 : Nat) < 16 ∨ 30 < 15)) ∧
    ((15 : Nat) < 16 ∧ (14 : Nat) < 15 ∧
      Temperature.decode (bitCodes 4 15 ++ [])
        = .error .invalidTemperature) ∧
    (16 ≤ (⟨25⟩ : Temperature).val ∧ (⟨25⟩ : Temperature).val ≤ 30) :=
  ⟨c4_temperature.1 15,
   ⟨by decide, by decide, c4_temperature.2.1 15 (by decide) (by decide) []⟩,
   c4_temperature.2.2 (bitCodes 4 9 ++ []) ⟨25⟩ [] (by decide)⟩

/-! ### C10: checksum depends only on five fields -/

theorem swing_nibble (v h : SwingMode) :
    (v.toNat ||| h.toNat <<< 4) >>> 4 = h.toNat := by
  cases v <;> cases h <;> rfl

theorem b5_nibble (td : TemperatureDisplay) (i : Bool) :
    (td.toNat ||| i.toNat <<< 2 ||| 32) >>> 4 = 2 := by
  cases td <;> cases i <;> rfl

/-- C10: `Controller::checksum` is determined by the mode, on,
temperature, ventilate and h_swing fields alone: any two states
agreeing on these five fields have equal checksums, whatever the
remaining thirteen fields hold. -/
theorem c10_checksum_fields (s1 s2 : Controller)
    (hm : s1.mode = s2.mode) (ho : s1.on = s2.on)
    (ht : s1.temperature = s2.temperature)
    (hv : s1.ventilate = s2.ventilate) (hh : s1.h_swing = s2.h_swing) :
    Controller.checksum s1 = Controller.checksum s2 := by
  obtain ⟨m1, o1, f1, w1, sl1, te1, ti1, st1, li1, an1, dr1, ve1, vs1, hs1,
    td1, if1, wf1, ec1⟩ := s1
  obtain ⟨m2, o2, f2, w2, sl2, te2, ti2, st2, li2, an2, dr2, ve2, vs2, hs2,
    td2, if2, wf2, ec2⟩ := s2
  simp only at hm ho ht hv hh
  subst hm ho ht hv hh
  simp [Controller.checksum, Controller.checksum_block]
  rw [swing_nibble vs1 hs1, swing_nibble vs2 hs1, b5_nibble td1 if1,
    b5_nibble td2 if2]

/-- Witness: `c10_checksum_fields` on `sampleState` and `altState`,
which differ in all thirteen irrelevant fields. -/
theorem c10_checksum_fields_witness :
    sampleState.mode = altState.mode ∧ sampleState.on = altState.on ∧
    sampleState.temperature = altState.temperature ∧
    sampleState.ventilate = altState.ventilate ∧
    sampleState.h_swing = altState.h_swing ∧
    Controller.checksum sampleState = Controller.checksum altState :=
  ⟨by decide, by decide, by decide, by decide, by decide,
    c10_checksum_fields sampleState altState (by decide) (by decide)
      (by decide) (by decide) (by decide)⟩

/-! ### C2: checksum versus the spec packed-byte view -/

theorem lowNibble_or_shift (a b k : Nat) (hk : 4 ≤ k) :
    (a ||| b <<< k) &&& 15 = a &&& 15 := by
  apply Nat.eq_of_testBit_eq
  intro i
  simp only [Nat.testBit_and, Nat.testBit_or, Nat.testBit_shiftLeft]
  rcases Nat.lt_or_ge i 4 with hi | hi
  · have hki : ¬(k ≤ i) := by omega
    simp [hki]
  · have h15 : Nat.testBit 15 i = false := Nat.testBit_lt_two_pow (by
      calc (15 : Nat) < 2 ^ 4 := by norm_num
      _ ≤ 2 ^ i := Nat.pow_le_pow_right (by norm_num) hi)
    simp [h15]

theorem highShift_and15 (b k : Nat) (hk : 4 ≤ k) : (b <<< k) &&& 15 = 0 := by
  have h := lowNibble_or_shift 0 b k hk
  simpa using h

/-- C2 counterexample: on `mismatchState` (wifi on, timer units digit
1) the code checksum is 5 while the vendor formula over the
spec-modelled packed attribute-byte view gives 10. -/
theorem c2_checksum_packed_counterexample :
    Controller.checksum mismatchState
      ≠ Controller.checksum_block (packedView mismatchState) := by decide

/-- C2 as amended: `Controller::checksum` equals the vendor formula
over the packed attribute-byte view in which the timer nibble of
byte 2 is taken as zero and the wifi bit is omitted from byte 5 (the
code fixes the timer byte to `0x0` and never feeds wifi into the
checksum). -/
theorem c2_checksum_packed_amended (s : Controller) :
    Controller.checksum s = Controller.checksum_block (packedViewUsed s) := by
  simp [Controller.checksum, Controller.checksum_block, packedViewUsed,
    lowNibble_or_shift, highShift_and15]

end Gree
